import Mathlib

/-!
# Shallow embedding of the `clamped` crate (src/src/lib.rs)

The crate provides five shapes of bounded-integer wrappers, generated by the
`clamped!` macro for twelve primitive widths (u8..u128, usize, i8..i128,
isize).  The macro body is identical for every width and only performs order
comparisons on the inner primitive, so we embed it once over `Int`: every
primitive width embeds into `Int` preserving exactly the comparisons the code
performs, hence a theorem quantified over all `Int` bounds/values covers every
width.  The twelve widths themselves are listed as `widths` (value ranges),
used where a claim mentions a width's extremal value.

Fallible code is modelled with `BuildOutcome`, which also records the
possibility of a `debug_assert!` panic; functions containing a
`debug_assert!` take a `debug : Bool` flag (true = debug build, where the
assertion is checked; false = release build, where it is compiled out).
-/

namespace ClampedSpec

/-- Outcome of running a fallible Rust conversion in a given build:
either a panic (from `debug_assert!`), a typed error (`Err`), or success
(`Ok`). -/
inductive BuildOutcome (ε α : Type) where
  | panicked : BuildOutcome ε α
  | error : ε → BuildOutcome ε α
  | ok : α → BuildOutcome ε α
deriving DecidableEq

/-- `OutOfBounds<T>` (lib.rs:6-13): rejection record of the half-open shape,
with fields `lower`, `upper`, `given`. -/
structure OutOfBounds where
  lower : Int
  upper : Int
  given : Int
deriving DecidableEq

/-- `OutOfBoundsFrom<T>` (lib.rs:15-21): rejection record of the lower-only
shape, with fields `lower`, `given`. -/
structure OutOfBoundsFrom where
  lower : Int
  given : Int
deriving DecidableEq

/-- `OutOfBoundsInclusive<T>` (lib.rs:23-30): rejection record of the
inclusive shape, with fields `lower`, `upper`, `given`. -/
structure OutOfBoundsInclusive where
  lower : Int
  upper : Int
  given : Int
deriving DecidableEq

/-- `OutOfBoundsTo<T>` (lib.rs:32-38): rejection record of the upper-open
shape, with fields `upper`, `given`. -/
structure OutOfBoundsTo where
  upper : Int
  given : Int
deriving DecidableEq

/-- `OutOfBoundsToInclusive<T>` (lib.rs:40-46): rejection record declared for
the upper-inclusive shape, with fields `upper`, `given`.  Note: no `TryFrom`
impl in lib.rs ever constructs this type. -/
structure OutOfBoundsToInclusive where
  upper : Int
  given : Int
deriving DecidableEq

/-- Display text of `OutOfBounds` per its `#[error(...)]` attribute
(lib.rs:8): `The value {given:?} is not in the half-open range
{lower:?}..{upper:?}` (for integers, Rust `Debug` prints plain decimal). -/
def OutOfBounds.display (e : OutOfBounds) : String :=
  "The value " ++ toString e.given ++ " is not in the half-open range "
    ++ toString e.lower ++ ".." ++ toString e.upper

/-- Display text of `OutOfBoundsFrom` per lib.rs:17: `The value {given:?} is
not in the inclusive range {lower:?}..`. -/
def OutOfBoundsFrom.display (e : OutOfBoundsFrom) : String :=
  "The value " ++ toString e.given ++ " is not in the inclusive range "
    ++ toString e.lower ++ ".."

/-- Display text of `OutOfBoundsInclusive` per lib.rs:25: `The value
{given:?} is not in the inclusive range {lower:?}..={upper:?}`. -/
def OutOfBoundsInclusive.display (e : OutOfBoundsInclusive) : String :=
  "The value " ++ toString e.given ++ " is not in the inclusive range "
    ++ toString e.lower ++ "..=" ++ toString e.upper

/-- Display text of `OutOfBoundsTo` per lib.rs:34: `The value {given:?} is
not in the exclusive range ..{upper:?}`. -/
def OutOfBoundsTo.display (e : OutOfBoundsTo) : String :=
  "The value " ++ toString e.given ++ " is not in the exclusive range .."
    ++ toString e.upper

/-- Display text of `OutOfBoundsToInclusive` per lib.rs:42: `The value
{given:?} is not in the inclusive range ..={upper:?}`. -/
def OutOfBoundsToInclusive.display (e : OutOfBoundsToInclusive) : String :=
  "The value " ++ toString e.given ++ " is not in the inclusive range ..="
    ++ toString e.upper

/-- `$clamped<const LOWER, const UPPER>($inner)` (lib.rs:57-60): the
half-open shape `LOWER..UPPER`; const parameters become value indices. -/
structure Clamped (LOWER UPPER : Int) where
  val : Int
deriving DecidableEq

/-- `$clamped_from<const LOWER>($inner)` (lib.rs:106-109): the lower-only
shape `LOWER..`. -/
structure ClampedFrom (LOWER : Int) where
  val : Int
deriving DecidableEq

/-- `$clamped_inclusive<const LOWER, const UPPER>($inner)` (lib.rs:149-152):
the inclusive shape `LOWER..=UPPER`. -/
structure ClampedInclusive (LOWER UPPER : Int) where
  val : Int
deriving DecidableEq

/-- `$clamped_to<const UPPER>($inner)` (lib.rs:204-207): the upper-open
shape `..UPPER`. -/
structure ClampedTo (UPPER : Int) where
  val : Int
deriving DecidableEq

/-- `$clamped_to_inclusive<const UPPER>($inner)` (lib.rs:247-250): the
upper-inclusive shape `..=UPPER`. -/
structure ClampedToInclusive (UPPER : Int) where
  val : Int
deriving DecidableEq

/-- `TryFrom<$inner> for $clamped<LOWER, UPPER>` (lib.rs:62-78):
`debug_assert!(LOWER < UPPER)`, then rejects with `OutOfBounds` iff
`inner < LOWER || inner >= UPPER`. -/
def Clamped.tryFrom (debug : Bool) (LOWER UPPER : Int) (inner : Int) :
    BuildOutcome OutOfBounds (Clamped LOWER UPPER) :=
  if debug = true ∧ ¬ LOWER < UPPER then .panicked
  else if inner < LOWER ∨ inner ≥ UPPER then
    .error { lower := LOWER, upper := UPPER, given := inner }
  else .ok ⟨inner⟩

/-- `TryFrom<$inner> for $clamped_from<LOWER>` (lib.rs:111-123): rejects
with `OutOfBoundsFrom` iff `inner < LOWER`; no `debug_assert!`. -/
def ClampedFrom.tryFrom (LOWER : Int) (inner : Int) :
    BuildOutcome OutOfBoundsFrom (ClampedFrom LOWER) :=
  if inner < LOWER then
    .error { lower := LOWER, given := inner }
  else .ok ⟨inner⟩

/-- `TryFrom<$inner> for $clamped_inclusive<LOWER, UPPER>` (lib.rs:154-172):
`debug_assert!(LOWER <= UPPER)`, then rejects with `OutOfBoundsInclusive`
iff `inner < LOWER || inner > UPPER`. -/
def ClampedInclusive.tryFrom (debug : Bool) (LOWER UPPER : Int) (inner : Int) :
    BuildOutcome OutOfBoundsInclusive (ClampedInclusive LOWER UPPER) :=
  if debug = true ∧ ¬ LOWER ≤ UPPER then .panicked
  else if inner < LOWER ∨ inner > UPPER then
    .error { lower := LOWER, upper := UPPER, given := inner }
  else .ok ⟨inner⟩

/-- `TryFrom<$inner> for $clamped_to<UPPER>` (lib.rs:209-221): rejects with
`OutOfBoundsTo` iff `inner >= UPPER`; no `debug_assert!`. -/
def ClampedTo.tryFrom (UPPER : Int) (inner : Int) :
    BuildOutcome OutOfBoundsTo (ClampedTo UPPER) :=
  if inner ≥ UPPER then
    .error { upper := UPPER, given := inner }
  else .ok ⟨inner⟩

/-- `TryFrom<$inner> for $clamped_to_inclusive<UPPER>` (lib.rs:252-264):
rejects iff `inner > UPPER`.  Note the error type in the source is
`OutOfBoundsTo<$inner>` (lib.rs:253), not `OutOfBoundsToInclusive`. -/
def ClampedToInclusive.tryFrom (UPPER : Int) (inner : Int) :
    BuildOutcome OutOfBoundsTo (ClampedToInclusive UPPER) :=
  if inner > UPPER then
    .error { upper := UPPER, given := inner }
  else .ok ⟨inner⟩

/-- `From<$clamped<LOWER, UPPER>> for $inner` (lib.rs:80-84): unwrap,
returns the private field. -/
def Clamped.intoInner {LOWER UPPER : Int} (c : Clamped LOWER UPPER) : Int :=
  c.val

/-- `From<$clamped_from<LOWER>> for $inner` (lib.rs:125-129). -/
def ClampedFrom.intoInner {LOWER : Int} (c : ClampedFrom LOWER) : Int :=
  c.val

/-- `From<$clamped_inclusive<LOWER, UPPER>> for $inner` (lib.rs:174-180). -/
def ClampedInclusive.intoInner {LOWER UPPER : Int}
    (c : ClampedInclusive LOWER UPPER) : Int :=
  c.val

/-- `From<$clamped_to<UPPER>> for $inner` (lib.rs:223-227). -/
def ClampedTo.intoInner {UPPER : Int} (c : ClampedTo UPPER) : Int :=
  c.val

/-- `From<$clamped_to_inclusive<UPPER>> for $inner` (lib.rs:266-270). -/
def ClampedToInclusive.intoInner {UPPER : Int}
    (c : ClampedToInclusive UPPER) : Int :=
  c.val

/-- `PartialEq<$inner> for $clamped` (lib.rs:98-104): `self.0 == *other`. -/
def Clamped.eqInner {LOWER UPPER : Int} (c : Clamped LOWER UPPER)
    (other : Int) : Bool :=
  c.val == other

/-- `PartialEq<$inner> for $clamped_from` (lib.rs:143-147). -/
def ClampedFrom.eqInner {LOWER : Int} (c : ClampedFrom LOWER)
    (other : Int) : Bool :=
  c.val == other

/-- `PartialEq<$inner> for $clamped_inclusive` (lib.rs:196-202). -/
def ClampedInclusive.eqInner {LOWER UPPER : Int}
    (c : ClampedInclusive LOWER UPPER) (other : Int) : Bool :=
  c.val == other

/-- `PartialEq<$inner> for $clamped_to` (lib.rs:241-245). -/
def ClampedTo.eqInner {UPPER : Int} (c : ClampedTo UPPER)
    (other : Int) : Bool :=
  c.val == other

/-- `PartialEq<$inner> for $clamped_to_inclusive` (lib.rs:284-288). -/
def ClampedToInclusive.eqInner {UPPER : Int} (c : ClampedToInclusive UPPER)
    (other : Int) : Bool :=
  c.val == other

/-- `#[derive(Clone, Copy)]` (lib.rs:58): clone/copy of a `repr(transparent)`
wrapper returns the same value bit-for-bit. -/
def Clamped.clone {LOWER UPPER : Int} (c : Clamped LOWER UPPER) :
    Clamped LOWER UPPER :=
  c

/-- `#[derive(Clone, Copy)]` (lib.rs:107). -/
def ClampedFrom.clone {LOWER : Int} (c : ClampedFrom LOWER) :
    ClampedFrom LOWER :=
  c

/-- `#[derive(Clone, Copy)]` (lib.rs:150). -/
def ClampedInclusive.clone {LOWER UPPER : Int}
    (c : ClampedInclusive LOWER UPPER) : ClampedInclusive LOWER UPPER :=
  c

/-- `#[derive(Clone, Copy)]` (lib.rs:205). -/
def ClampedTo.clone {UPPER : Int} (c : ClampedTo UPPER) : ClampedTo UPPER :=
  c

/-- `#[derive(Clone, Copy)]` (lib.rs:248). -/
def ClampedToInclusive.clone {UPPER : Int} (c : ClampedToInclusive UPPER) :
    ClampedToInclusive UPPER :=
  c

/-- A primitive integer width: its value range as a subrange of `Int`.
`usize`/`isize` are modelled as 64-bit (pointer-sized on the common
targets). -/
structure Width where
  min : Int
  max : Int
deriving DecidableEq

/-- `v` is representable in width `w`. -/
def Width.inRange (w : Width) (v : Int) : Prop :=
  w.min ≤ v ∧ v ≤ w.max

instance (w : Width) (v : Int) : Decidable (w.inRange v) := by
  unfold Width.inRange; infer_instance

/-- The twelve instantiated widths (lib.rs:292-388): u8, u16, u32, u64,
u128, usize, i8, i16, i32, i64, i128, isize. -/
def widths : List Width :=
  [ ⟨0, 2 ^ 8 - 1⟩, ⟨0, 2 ^ 16 - 1⟩, ⟨0, 2 ^ 32 - 1⟩, ⟨0, 2 ^ 64 - 1⟩,
    ⟨0, 2 ^ 128 - 1⟩, ⟨0, 2 ^ 64 - 1⟩,
    ⟨-(2 ^ 7), 2 ^ 7 - 1⟩, ⟨-(2 ^ 15), 2 ^ 15 - 1⟩, ⟨-(2 ^ 31), 2 ^ 31 - 1⟩,
    ⟨-(2 ^ 63), 2 ^ 63 - 1⟩, ⟨-(2 ^ 127), 2 ^ 127 - 1⟩,
    ⟨-(2 ^ 63), 2 ^ 63 - 1⟩ ]

/-- Model of `std::any::type_name::<Self>()` output for a crate-level type
with integer const generic arguments: the crate path, `::`, the bare type
name, and the const arguments in angle brackets, e.g.
`clamped::ClampedU8<10, 20>`. -/
def typeNameOf (modulePath baseName : String) (args : List Int) : String :=
  modulePath ++ "::" ++ baseName ++ "<"
    ++ String.intercalate ", " (args.map toString) ++ ">"

/-- Scan for the rightmost occurrence of `sep` in a character list,
returning the parts before and after it.  The recursion prefers a match
found in the tail (i.e. further right) over one at the current position. -/
def rsplitListOnce (sep : List Char) : List Char → Option (List Char × List Char)
  | [] => none
  | c :: cs =>
    match rsplitListOnce sep cs with
    | some (pre, post) => some (c :: pre, post)
    | none =>
      if sep.isPrefixOf (c :: cs) then some ([], (c :: cs).drop sep.length)
      else none

/-- Model of `str::rsplit_once` (for a non-empty needle, the only way the
source calls it): splits at the last occurrence of `sep`, returning the
parts before and after it, or `none` when `sep` does not occur. -/
def rsplitOnce (s sep : String) : Option (String × String) :=
  match rsplitListOnce sep.toList s.toList with
  | some (pre, post) => some (String.mk pre, String.mk post)
  | none => none

/-- The name computation shared by every `fmt::Debug` impl in the macro
(lib.rs:90-93): strip everything up to and including the last `::` of the
type name, keeping the full name when there is no `::`. -/
def stripModulePath (tn : String) : String :=
  match rsplitOnce tn "::" with
  | some (_pre, post) => post
  | none => tn

/-- Model of `Formatter::debug_tuple(name).field(&self.0).finish()`:
renders `name(field)`. -/
def debugTupleFmt (name : String) (field : Int) : String :=
  name ++ "(" ++ toString field ++ ")"

/-- `fmt::Debug for $clamped<LOWER, UPPER>` (lib.rs:86-96): strip the module
path from `type_name::<Self>()` and render a one-field debug tuple.
`baseName` is the width-specific macro identifier, e.g. `ClampedU8`. -/
def Clamped.debugFmt (baseName : String) (LOWER UPPER : Int)
    (c : Clamped LOWER UPPER) : String :=
  debugTupleFmt (stripModulePath (typeNameOf "clamped" baseName [LOWER, UPPER]))
    c.val

/-- `fmt::Debug for $clamped_from<LOWER>` (lib.rs:131-141): same name
computation, one const argument. -/
def ClampedFrom.debugFmt (baseName : String) (LOWER : Int)
    (c : ClampedFrom LOWER) : String :=
  debugTupleFmt (stripModulePath (typeNameOf "clamped" baseName [LOWER])) c.val

/-- `fmt::Debug for $clamped_inclusive<LOWER, UPPER>` (lib.rs:182-194). -/
def ClampedInclusive.debugFmt (baseName : String) (LOWER UPPER : Int)
    (c : ClampedInclusive LOWER UPPER) : String :=
  debugTupleFmt (stripModulePath (typeNameOf "clamped" baseName [LOWER, UPPER]))
    c.val

/-- `fmt::Debug for $clamped_to<UPPER>` (lib.rs:229-239). -/
def ClampedTo.debugFmt (baseName : String) (UPPER : Int)
    (c : ClampedTo UPPER) : String :=
  debugTupleFmt (stripModulePath (typeNameOf "clamped" baseName [UPPER])) c.val

/-- `fmt::Debug for $clamped_to_inclusive<UPPER>` (lib.rs:272-282). -/
def ClampedToInclusive.debugFmt (baseName : String) (UPPER : Int)
    (c : ClampedToInclusive UPPER) : String :=
  debugTupleFmt (stripModulePath (typeNameOf "clamped" baseName [UPPER])) c.val

/-- The decimal digit characters of a natural number, most significant
first. -/
def decChars (n : Nat) : List Char :=
  if _h : n < 10 then [Nat.digitChar n]
  else decChars (n / 10) ++ [Nat.digitChar (n % 10)]
decreasing_by exact Nat.div_lt_self (by omega) (by omega)

/-!
## Reachability through the public API

The inner field of every shape is private and the only public constructor is
the `TryFrom` impl; the derived `Clone`/`Copy` return the same value.  The
remaining public operations (`PartialEq`, `Hash`, `Debug`) borrow the value
and produce no new bounded value.
-/

/-- Values of the half-open shape obtainable through the public API:
successful `TryFrom` (lib.rs:62-78), or clone/copy of such a value. -/
inductive Clamped.Reachable (LOWER UPPER : Int) : Clamped LOWER UPPER → Prop where
  | construct (debug : Bool) (v : Int) (c : Clamped LOWER UPPER) :
      Clamped.tryFrom debug LOWER UPPER v = .ok c → Clamped.Reachable LOWER UPPER c
  | cloned (c : Clamped LOWER UPPER) :
      Clamped.Reachable LOWER UPPER c → Clamped.Reachable LOWER UPPER c.clone

/-- Values of the lower-only shape obtainable through the public API. -/
inductive ClampedFrom.Reachable (LOWER : Int) : ClampedFrom LOWER → Prop where
  | construct (v : Int) (c : ClampedFrom LOWER) :
      ClampedFrom.tryFrom LOWER v = .ok c → ClampedFrom.Reachable LOWER c
  | cloned (c : ClampedFrom LOWER) :
      ClampedFrom.Reachable LOWER c → ClampedFrom.Reachable LOWER c.clone

/-- Values of the inclusive shape obtainable through the public API. -/
inductive ClampedInclusive.Reachable (LOWER UPPER : Int) :
    ClampedInclusive LOWER UPPER → Prop where
  | construct (debug : Bool) (v : Int) (c : ClampedInclusive LOWER UPPER) :
      ClampedInclusive.tryFrom debug LOWER UPPER v = .ok c →
      ClampedInclusive.Reachable LOWER UPPER c
  | cloned (c : ClampedInclusive LOWER UPPER) :
      ClampedInclusive.Reachable LOWER UPPER c →
      ClampedInclusive.Reachable LOWER UPPER c.clone

/-- Values of the upper-open shape obtainable through the public API. -/
inductive ClampedTo.Reachable (UPPER : Int) : ClampedTo UPPER → Prop where
  | construct (v : Int) (c : ClampedTo UPPER) :
      ClampedTo.tryFrom UPPER v = .ok c → ClampedTo.Reachable UPPER c
  | cloned (c : ClampedTo UPPER) :
      ClampedTo.Reachable UPPER c → ClampedTo.Reachable UPPER c.clone

/-- Values of the upper-inclusive shape obtainable through the public API. -/
inductive ClampedToInclusive.Reachable (UPPER : Int) : ClampedToInclusive UPPER → Prop where
  | construct (v : Int) (c : ClampedToInclusive UPPER) :
      ClampedToInclusive.tryFrom UPPER v = .ok c → ClampedToInclusive.Reachable UPPER c
  | cloned (c : ClampedToInclusive UPPER) :
      ClampedToInclusive.Reachable UPPER c → ClampedToInclusive.Reachable UPPER c.clone

/-!
## Helper lemmas about construction outcomes
-/

theorem clamped_tryFrom_ok_iff (debug : Bool) (L U v : Int) :
    (∃ c, Clamped.tryFrom debug L U v = .ok c) ↔ L ≤ v ∧ v < U := by
  unfold Clamped.tryFrom
  split_ifs with h1 h2
  all_goals simp
  all_goals omega

theorem clampedFrom_tryFrom_ok_iff (L v : Int) :
    (∃ c, ClampedFrom.tryFrom L v = .ok c) ↔ L ≤ v := by
  unfold ClampedFrom.tryFrom
  split_ifs with h1
  all_goals simp
  all_goals omega

theorem clampedInclusive_tryFrom_ok_iff (debug : Bool) (L U v : Int) :
    (∃ c, ClampedInclusive.tryFrom debug L U v = .ok c) ↔ L ≤ v ∧ v ≤ U := by
  unfold ClampedInclusive.tryFrom
  split_ifs with h1 h2
  all_goals simp
  all_goals omega

theorem clampedTo_tryFrom_ok_iff (U v : Int) :
    (∃ c, ClampedTo.tryFrom U v = .ok c) ↔ v < U := by
  unfold ClampedTo.tryFrom
  split_ifs with h1
  all_goals simp
  all_goals omega

theorem clampedToInclusive_tryFrom_ok_iff (U v : Int) :
    (∃ c, ClampedToInclusive.tryFrom U v = .ok c) ↔ v ≤ U := by
  unfold ClampedToInclusive.tryFrom
  split_ifs with h1
  all_goals simp
  all_goals omega

theorem clamped_tryFrom_ok_val (debug : Bool) (L U v : Int)
    (c : Clamped L U) (h : Clamped.tryFrom debug L U v = .ok c) :
    c.val = v := by
  unfold Clamped.tryFrom at h
  split_ifs at h
  all_goals simp_all
  all_goals exact h ▸ rfl

theorem clampedFrom_tryFrom_ok_val (L v : Int)
    (c : ClampedFrom L) (h : ClampedFrom.tryFrom L v = .ok c) :
    c.val = v := by
  unfold ClampedFrom.tryFrom at h
  split_ifs at h
  all_goals simp_all
  all_goals exact h ▸ rfl

theorem clampedInclusive_tryFrom_ok_val (debug : Bool) (L U v : Int)
    (c : ClampedInclusive L U) (h : ClampedInclusive.tryFrom debug L U v = .ok c) :
    c.val = v := by
  unfold ClampedInclusive.tryFrom at h
  split_ifs at h
  all_goals simp_all
  all_goals exact h ▸ rfl

theorem clampedTo_tryFrom_ok_val (U v : Int)
    (c : ClampedTo U) (h : ClampedTo.tryFrom U v = .ok c) :
    c.val = v := by
  unfold ClampedTo.tryFrom at h
  split_ifs at h
  all_goals simp_all
  all_goals exact h ▸ rfl

theorem clampedToInclusive_tryFrom_ok_val (U v : Int)
    (c : ClampedToInclusive U) (h : ClampedToInclusive.tryFrom U v = .ok c) :
    c.val = v := by
  unfold ClampedToInclusive.tryFrom at h
  split_ifs at h
  all_goals simp_all
  all_goals exact h ▸ rfl

theorem clamped_tryFrom_error_eq (debug : Bool) (L U v : Int)
    (e : OutOfBounds) (h : Clamped.tryFrom debug L U v = .error e) :
    e = ⟨L, U, v⟩ := by
  unfold Clamped.tryFrom at h
  split_ifs at h
  all_goals simp_all

theorem clampedFrom_tryFrom_error_eq (L v : Int)
    (e : OutOfBoundsFrom) (h : ClampedFrom.tryFrom L v = .error e) :
    e = ⟨L, v⟩ := by
  unfold ClampedFrom.tryFrom at h
  split_ifs at h
  all_goals simp_all

theorem clampedInclusive_tryFrom_error_eq (debug : Bool) (L U v : Int)
    (e : OutOfBoundsInclusive) (h : ClampedInclusive.tryFrom debug L U v = .error e) :
    e = ⟨L, U, v⟩ := by
  unfold ClampedInclusive.tryFrom at h
  split_ifs at h
  all_goals simp_all

theorem clampedTo_tryFrom_error_eq (U v : Int)
    (e : OutOfBoundsTo) (h : ClampedTo.tryFrom U v = .error e) :
    e = ⟨U, v⟩ := by
  unfold ClampedTo.tryFrom at h
  split_ifs at h
  all_goals simp_all

theorem clampedToInclusive_tryFrom_error_eq (U v : Int)
    (e : OutOfBoundsTo) (h : ClampedToInclusive.tryFrom U v = .error e) :
    e = ⟨U, v⟩ := by
  unfold ClampedToInclusive.tryFrom at h
  split_ifs at h
  all_goals simp_all

theorem clamped_tryFrom_panicked_iff (L U v : Int) :
    Clamped.tryFrom true L U v = .panicked ↔ ¬ L < U := by
  unfold Clamped.tryFrom
  split_ifs with h1 h2
  all_goals simp_all

theorem clampedInclusive_tryFrom_panicked_iff (L U v : Int) :
    ClampedInclusive.tryFrom true L U v = .panicked ↔ ¬ L ≤ U := by
  unfold ClampedInclusive.tryFrom
  split_ifs with h1 h2
  all_goals simp_all

theorem clampedFrom_tryFrom_ne_panicked (L v : Int) :
    ClampedFrom.tryFrom L v ≠ .panicked := by
  unfold ClampedFrom.tryFrom
  split_ifs
  all_goals simp

theorem clampedTo_tryFrom_ne_panicked (U v : Int) :
    ClampedTo.tryFrom U v ≠ .panicked := by
  unfold ClampedTo.tryFrom
  split_ifs
  all_goals simp

theorem clampedToInclusive_tryFrom_ne_panicked (U v : Int) :
    ClampedToInclusive.tryFrom U v ≠ .panicked := by
  unfold ClampedToInclusive.tryFrom
  split_ifs
  all_goals simp

theorem clamped_tryFrom_ok_mem (debug : Bool) (L U v : Int) (c : Clamped L U)
    (h : Clamped.tryFrom debug L U v = .ok c) : L ≤ c.val ∧ c.val < U := by
  have hv := clamped_tryFrom_ok_val debug L U v c h
  have hm := (clamped_tryFrom_ok_iff debug L U v).mp ⟨c, h⟩
  omega

theorem clampedFrom_tryFrom_ok_mem (L v : Int) (c : ClampedFrom L)
    (h : ClampedFrom.tryFrom L v = .ok c) : L ≤ c.val := by
  have hv := clampedFrom_tryFrom_ok_val L v c h
  have hm := (clampedFrom_tryFrom_ok_iff L v).mp ⟨c, h⟩
  omega

theorem clampedInclusive_tryFrom_ok_mem (debug : Bool) (L U v : Int)
    (c : ClampedInclusive L U) (h : ClampedInclusive.tryFrom debug L U v = .ok c) :
    L ≤ c.val ∧ c.val ≤ U := by
  have hv := clampedInclusive_tryFrom_ok_val debug L U v c h
  have hm := (clampedInclusive_tryFrom_ok_iff debug L U v).mp ⟨c, h⟩
  omega

theorem clampedTo_tryFrom_ok_mem (U v : Int) (c : ClampedTo U)
    (h : ClampedTo.tryFrom U v = .ok c) : c.val < U := by
  have hv := clampedTo_tryFrom_ok_val U v c h
  have hm := (clampedTo_tryFrom_ok_iff U v).mp ⟨c, h⟩
  omega

theorem clampedToInclusive_tryFrom_ok_mem (U v : Int) (c : ClampedToInclusive U)
    (h : ClampedToInclusive.tryFrom U v = .ok c) : c.val ≤ U := by
  have hv := clampedToInclusive_tryFrom_ok_val U v c h
  have hm := (clampedToInclusive_tryFrom_ok_iff U v).mp ⟨c, h⟩
  omega

/-!
## The claims
-/

/-- Claim C1: for every primitive width (all widths embed into `Int`
preserving the comparisons the code performs), every bound choice, every
build kind, and every candidate `v`, `TryFrom` succeeds exactly when the
shape's membership predicate holds: half-open iff `LOWER ≤ v < UPPER`,
lower-only iff `v ≥ LOWER`, inclusive iff `LOWER ≤ v ≤ UPPER`, upper-open
iff `v < UPPER`, upper-inclusive iff `v ≤ UPPER`; in particular `v = LOWER`
is accepted by every lower-bounded shape (under the two-sided type
invariants), and `v = UPPER` is accepted only by the inclusive and
upper-inclusive shapes. -/
theorem tryFrom_succeeds_iff_member (debug : Bool) (L U v : Int) :
    ((∃ c, Clamped.tryFrom debug L U v = .ok c) ↔ L ≤ v ∧ v < U)
    ∧ ((∃ c, ClampedFrom.tryFrom L v = .ok c) ↔ v ≥ L)
    ∧ ((∃ c, ClampedInclusive.tryFrom debug L U v = .ok c) ↔ L ≤ v ∧ v ≤ U)
    ∧ ((∃ c, ClampedTo.tryFrom U v = .ok c) ↔ v < U)
    ∧ ((∃ c, ClampedToInclusive.tryFrom U v = .ok c) ↔ v ≤ U)
    ∧ (∃ c, ClampedFrom.tryFrom L L = .ok c)
    ∧ (L < U → ∃ c, Clamped.tryFrom debug L U L = .ok c)
    ∧ (L ≤ U → ∃ c, ClampedInclusive.tryFrom debug L U L = .ok c)
    ∧ (¬ ∃ c, Clamped.tryFrom debug L U U = .ok c)
    ∧ (L ≤ U → ∃ c, ClampedInclusive.tryFrom debug L U U = .ok c)
    ∧ (¬ ∃ c, ClampedTo.tryFrom U U = .ok c)
    ∧ (∃ c, ClampedToInclusive.tryFrom U U = .ok c) := by
  refine ⟨clamped_tryFrom_ok_iff debug L U v, clampedFrom_tryFrom_ok_iff L v,
    clampedInclusive_tryFrom_ok_iff debug L U v, clampedTo_tryFrom_ok_iff U v,
    clampedToInclusive_tryFrom_ok_iff U v,
    (clampedFrom_tryFrom_ok_iff L L).mpr le_rfl,
    fun h => (clamped_tryFrom_ok_iff debug L U L).mpr ⟨le_rfl, h⟩,
    fun h => (clampedInclusive_tryFrom_ok_iff debug L U L).mpr ⟨le_rfl, h⟩,
    fun h => absurd ((clamped_tryFrom_ok_iff debug L U U).mp h) (by omega),
    fun h => (clampedInclusive_tryFrom_ok_iff debug L U U).mpr ⟨h, le_rfl⟩,
    fun h => absurd ((clampedTo_tryFrom_ok_iff U U).mp h) (by omega),
    (clampedToInclusive_tryFrom_ok_iff U U).mpr le_rfl⟩

/-- Witness for C1 at `debug = true`, `L = 10`, `U = 20`, discharging the
bound-ordering hypotheses at a concrete input. -/
theorem tryFrom_succeeds_iff_member_witness :
    (∃ c, Clamped.tryFrom true 10 20 10 = .ok c)
    ∧ (∃ c, ClampedInclusive.tryFrom true 10 20 20 = .ok c) :=
  ⟨(tryFrom_succeeds_iff_member true 10 20 10).2.2.2.2.2.2.1 (by decide),
   (tryFrom_succeeds_iff_member true 10 20 20).2.2.2.2.2.2.2.2.2.1 (by decide)⟩

/-- Claim C2 (failing evaluation): the upper-inclusive shape's `TryFrom`
impl declares `type Error = OutOfBoundsTo` (lib.rs:253) and, at the rejected
candidate `11` against `UPPER = 10`, returns an `OutOfBoundsTo` record —
not the shape's own `OutOfBoundsToInclusive` kind, which no code in lib.rs
ever constructs. -/
theorem toInclusive_tryFrom_returns_outOfBoundsTo :
    ClampedToInclusive.tryFrom 10 11 = .error (⟨10, 11⟩ : OutOfBoundsTo) := by
  decide

/-- Claim C3 (failing evaluation): the rejection record returned by the
upper-inclusive shape for candidate `11` against `UPPER = 10` displays as
the exclusive-range (upper-open) sentence `..10`, not the upper-inclusive
notation `..=10` carried by the unused `OutOfBoundsToInclusive` kind. -/
theorem toInclusive_rejection_display_names_exclusive_range :
    ClampedToInclusive.tryFrom 10 11 = .error (⟨10, 11⟩ : OutOfBoundsTo)
    ∧ OutOfBoundsTo.display ⟨10, 11⟩
        = "The value 11 is not in the exclusive range ..10"
    ∧ OutOfBoundsToInclusive.display ⟨10, 11⟩
        = "The value 11 is not in the inclusive range ..=10" :=
  ⟨by decide, rfl, rfl⟩

/-- Claim C4: whenever construction is rejected, the fields of the returned
rejection record are exactly the type's bound constant(s) and the rejected
candidate itself, for every shape. -/
theorem rejection_record_fields_exact (debug : Bool) (L U v : Int) :
    (∀ e, Clamped.tryFrom debug L U v = .error e →
      e.lower = L ∧ e.upper = U ∧ e.given = v)
    ∧ (∀ e, ClampedFrom.tryFrom L v = .error e → e.lower = L ∧ e.given = v)
    ∧ (∀ e, ClampedInclusive.tryFrom debug L U v = .error e →
      e.lower = L ∧ e.upper = U ∧ e.given = v)
    ∧ (∀ e, ClampedTo.tryFrom U v = .error e → e.upper = U ∧ e.given = v)
    ∧ (∀ e, ClampedToInclusive.tryFrom U v = .error e →
      e.upper = U ∧ e.given = v) := by
  refine ⟨fun e h => ?_, fun e h => ?_, fun e h => ?_, fun e h => ?_, fun e h => ?_⟩
  · cases clamped_tryFrom_error_eq debug L U v e h; exact ⟨rfl, rfl, rfl⟩
  · cases clampedFrom_tryFrom_error_eq L v e h; exact ⟨rfl, rfl⟩
  · cases clampedInclusive_tryFrom_error_eq debug L U v e h; exact ⟨rfl, rfl, rfl⟩
  · cases clampedTo_tryFrom_error_eq U v e h; exact ⟨rfl, rfl⟩
  · cases clampedToInclusive_tryFrom_error_eq U v e h; exact ⟨rfl, rfl⟩

/-- Witness for C4: the half-open rejection of `9` against `10..20` carries
exactly those bounds and the rejected value. -/
theorem rejection_record_fields_exact_witness :
    (OutOfBounds.lower ⟨10, 20, 9⟩ = 10 ∧ OutOfBounds.upper ⟨10, 20, 9⟩ = 20
      ∧ OutOfBounds.given ⟨10, 20, 9⟩ = 9) :=
  (rejection_record_fields_exact true 10 20 9).1 ⟨10, 20, 9⟩ (by decide)

/-- Claim C5: for every shape, a successful construction from `v` unwraps
back to `v` unchanged. -/
theorem construct_then_unwrap_roundtrip (debug : Bool) (L U v : Int) :
    (∀ c, Clamped.tryFrom debug L U v = .ok c → c.intoInner = v)
    ∧ (∀ c, ClampedFrom.tryFrom L v = .ok c → c.intoInner = v)
    ∧ (∀ c, ClampedInclusive.tryFrom debug L U v = .ok c → c.intoInner = v)
    ∧ (∀ c, ClampedTo.tryFrom U v = .ok c → c.intoInner = v)
    ∧ (∀ c, ClampedToInclusive.tryFrom U v = .ok c → c.intoInner = v) :=
  ⟨fun c h => clamped_tryFrom_ok_val debug L U v c h,
   fun c h => clampedFrom_tryFrom_ok_val L v c h,
   fun c h => clampedInclusive_tryFrom_ok_val debug L U v c h,
   fun c h => clampedTo_tryFrom_ok_val U v c h,
   fun c h => clampedToInclusive_tryFrom_ok_val U v c h⟩

/-- Witness for C5: constructing the half-open `10..20` value from `15`
and unwrapping yields `15`. -/
theorem construct_then_unwrap_roundtrip_witness :
    Clamped.intoInner (⟨15⟩ : Clamped 10 20) = 15 :=
  (construct_then_unwrap_roundtrip true 10 20 15).1 ⟨15⟩ (by decide)

/-- Claim C6: for every shape, a successfully constructed bounded value
compares equal to the plain primitive it was built from, via the
`PartialEq`-against-primitive impl, without unwrapping. -/
theorem constructed_value_eq_inner (debug : Bool) (L U v : Int) :
    (∀ c, Clamped.tryFrom debug L U v = .ok c → c.eqInner v = true)
    ∧ (∀ c, ClampedFrom.tryFrom L v = .ok c → c.eqInner v = true)
    ∧ (∀ c, ClampedInclusive.tryFrom debug L U v = .ok c → c.eqInner v = true)
    ∧ (∀ c, ClampedTo.tryFrom U v = .ok c → c.eqInner v = true)
    ∧ (∀ c, ClampedToInclusive.tryFrom U v = .ok c → c.eqInner v = true) := by
  refine ⟨fun c h => ?_, fun c h => ?_, fun c h => ?_, fun c h => ?_, fun c h => ?_⟩
  · have := clamped_tryFrom_ok_val debug L U v c h
    simp [Clamped.eqInner, this]
  · have := clampedFrom_tryFrom_ok_val L v c h
    simp [ClampedFrom.eqInner, this]
  · have := clampedInclusive_tryFrom_ok_val debug L U v c h
    simp [ClampedInclusive.eqInner, this]
  · have := clampedTo_tryFrom_ok_val U v c h
    simp [ClampedTo.eqInner, this]
  · have := clampedToInclusive_tryFrom_ok_val U v c h
    simp [ClampedToInclusive.eqInner, this]

/-- Witness for C6 at the half-open `10..20` shape and `v = 15`. -/
theorem constructed_value_eq_inner_witness :
    Clamped.eqInner (⟨15⟩ : Clamped 10 20) 15 = true :=
  (constructed_value_eq_inner true 10 20 15).1 ⟨15⟩ (by decide)

/-- Claim C7: in debug builds, the half-open construction panics exactly
when `¬ LOWER < UPPER` and the inclusive construction panics exactly when
`¬ LOWER ≤ UPPER`, independently of the candidate value; under well-ordered
bounds neither assertion can fire. -/
theorem debug_assert_two_sided_bound_order (L U v : Int) :
    (Clamped.tryFrom true L U v = .panicked ↔ ¬ L < U)
    ∧ (ClampedInclusive.tryFrom true L U v = .panicked ↔ ¬ L ≤ U)
    ∧ (L < U → Clamped.tryFrom true L U v ≠ .panicked)
    ∧ (L ≤ U → ClampedInclusive.tryFrom true L U v ≠ .panicked) :=
  ⟨clamped_tryFrom_panicked_iff L U v,
   clampedInclusive_tryFrom_panicked_iff L U v,
   fun h hp => absurd h ((clamped_tryFrom_panicked_iff L U v).mp hp),
   fun h hp => absurd h ((clampedInclusive_tryFrom_panicked_iff L U v).mp hp)⟩

/-- Witness for C7: with the well-ordered bounds `10 < 20` neither
two-sided debug assertion fires at candidate `15`. -/
theorem debug_assert_two_sided_bound_order_witness :
    Clamped.tryFrom true 10 20 15 ≠ .panicked
    ∧ ClampedInclusive.tryFrom true 10 20 15 ≠ .panicked :=
  ⟨(debug_assert_two_sided_bound_order 10 20 15).2.2.1 (by decide),
   (debug_assert_two_sided_bound_order 10 20 15).2.2.2 (by decide)⟩

/-- Claim C9: every bounded value reachable through the public API
(successful fallible construction, the sole public construction path, plus
clone/copy, which return the same value) satisfies its shape's membership
predicate; equality, hashing and formatting borrow the value and create no
new bounded value. -/
theorem reachable_values_satisfy_range (L U : Int) :
    (∀ c, Clamped.Reachable L U c → L ≤ c.val ∧ c.val < U)
    ∧ (∀ c, ClampedFrom.Reachable L c → L ≤ c.val)
    ∧ (∀ c, ClampedInclusive.Reachable L U c → L ≤ c.val ∧ c.val ≤ U)
    ∧ (∀ c, ClampedTo.Reachable U c → c.val < U)
    ∧ (∀ c, ClampedToInclusive.Reachable U c → c.val ≤ U) := by
  refine ⟨fun c h => ?_, fun c h => ?_, fun c h => ?_, fun c h => ?_, fun c h => ?_⟩
  · induction h with
    | construct debug v c hok => exact clamped_tryFrom_ok_mem debug L U v c hok
    | cloned c _ ih => exact ih
  · induction h with
    | construct v c hok => exact clampedFrom_tryFrom_ok_mem L v c hok
    | cloned c _ ih => exact ih
  · induction h with
    | construct debug v c hok => exact clampedInclusive_tryFrom_ok_mem debug L U v c hok
    | cloned c _ ih => exact ih
  · induction h with
    | construct v c hok => exact clampedTo_tryFrom_ok_mem U v c hok
    | cloned c _ ih => exact ih
  · induction h with
    | construct v c hok => exact clampedToInclusive_tryFrom_ok_mem U v c hok
    | cloned c _ ih => exact ih

/-- Witness for C9: the half-open `10..20` value constructed from `15`
(then cloned) is reachable and satisfies the predicate. -/
theorem reachable_values_satisfy_range_witness :
    (10 : Int) ≤ (Clamped.clone (⟨15⟩ : Clamped 10 20)).val
    ∧ (Clamped.clone (⟨15⟩ : Clamped 10 20)).val < 20 :=
  (reachable_values_satisfy_range 10 20).1 (Clamped.clone ⟨15⟩)
    (Clamped.Reachable.cloned ⟨15⟩
      (Clamped.Reachable.construct true 15 ⟨15⟩ (by decide)))

/-- Claim C10: the one-sided shapes perform no bound-sanity check (their
conversions can never panic, for any bound); instantiated at a width's
minimum value, the upper-open shape rejects every representable input
(the type is permanently unsatisfiable) while the lower-only shape accepts
every representable input. -/
theorem one_sided_shapes_no_bound_check :
    (∀ U v : Int, ClampedTo.tryFrom U v ≠ .panicked)
    ∧ (∀ L v : Int, ClampedFrom.tryFrom L v ≠ .panicked)
    ∧ (∀ w ∈ widths, ∀ v : Int, w.inRange v →
        ClampedTo.tryFrom w.min v = .error ⟨w.min, v⟩
          ∧ ∃ c, ClampedFrom.tryFrom w.min v = .ok c) := by
  refine ⟨clampedTo_tryFrom_ne_panicked, clampedFrom_tryFrom_ne_panicked, ?_⟩
  intro w _hw v hv
  constructor
  · have hge : v ≥ w.min := hv.1
    simp [ClampedTo.tryFrom, hge]
  · exact (clampedFrom_tryFrom_ok_iff w.min v).mpr hv.1

/-- Witness for C10 at the u8 width (`min = 0`) and candidate `5`. -/
theorem one_sided_shapes_no_bound_check_witness :
    ClampedTo.tryFrom (Width.min ⟨0, 2 ^ 8 - 1⟩) 5
        = .error ⟨Width.min ⟨0, 2 ^ 8 - 1⟩, 5⟩
    ∧ ∃ c, ClampedFrom.tryFrom (Width.min ⟨0, 2 ^ 8 - 1⟩) 5 = .ok c :=
  one_sided_shapes_no_bound_check.2.2 ⟨0, 2 ^ 8 - 1⟩ (by decide) 5 (by decide)

/-!
## Decimal rendering: characters and injectivity
-/

/-!
## Characters of the decimal rendering of integers

`toString : Int → String` (the model of Rust's decimal `Debug`/`Display`
formatting of primitive integers) goes through `Nat.toDigitsCore`; `decChars`
is a direct structural description of the digit characters it produces, used
to reason about which characters can occur and to recover injectivity.
-/



theorem decChars_lt (n : Nat) (h : n < 10) : decChars n = [Nat.digitChar n] := by
  rw [decChars, dif_pos h]

theorem decChars_ge (n : Nat) (h : ¬ n < 10) :
    decChars n = decChars (n / 10) ++ [Nat.digitChar (n % 10)] := by
  rw [decChars, dif_neg h]

theorem digitChar_mem_digits :
    ∀ d < 10, Nat.digitChar d ∈ ['0', '1', '2', '3', '4', '5', '6', '7', '8', '9'] := by
  decide

theorem digitChar_inj_lt :
    ∀ a < 10, ∀ b < 10, Nat.digitChar a = Nat.digitChar b → a = b := by
  decide

theorem toDigitsCore_acc (b : Nat) :
    ∀ (fuel n : Nat) (acc : List Char),
      Nat.toDigitsCore b fuel n acc = Nat.toDigitsCore b fuel n [] ++ acc := by
  intro fuel
  induction fuel with
  | zero => intro n acc; simp [Nat.toDigitsCore]
  | succ f ih =>
    intro n acc
    simp only [Nat.toDigitsCore]
    by_cases h : n / b = 0
    · simp [h]
    · rw [if_neg h, if_neg h, ih (n / b) (Nat.digitChar (n % b) :: acc),
        ih (n / b) [Nat.digitChar (n % b)]]
      simp

theorem toDigitsCore_eq_decChars :
    ∀ (fuel n : Nat) (acc : List Char), n < fuel →
      Nat.toDigitsCore 10 fuel n acc = decChars n ++ acc := by
  intro fuel
  induction fuel with
  | zero => omega
  | succ f ih =>
    intro n acc h
    simp only [Nat.toDigitsCore]
    by_cases h10 : n / 10 = 0
    · have hn : n < 10 := by omega
      rw [if_pos h10, decChars, dif_pos hn, Nat.mod_eq_of_lt hn]
      simp
    · have hge : 10 ≤ n := by omega
      have hlt : n / 10 < f := by omega
      rw [if_neg h10, ih (n / 10) _ hlt]
      conv_rhs => rw [decChars]
      rw [dif_neg (show ¬ n < 10 by omega)]
      simp

theorem decChars_ne_nil (n : Nat) : decChars n ≠ [] := by
  rw [decChars]
  split <;> simp

theorem mem_decChars_digit (n : Nat) :
    ∀ c ∈ decChars n, c ∈ ['0', '1', '2', '3', '4', '5', '6', '7', '8', '9'] := by
  induction n using Nat.strong_induction_on with
  | _ n ih =>
    rw [decChars]
    split
    · intro c hc
      simp only [List.mem_singleton] at hc
      subst hc
      exact digitChar_mem_digits n (by omega)
    · intro c hc
      rcases List.mem_append.mp hc with h | h
      · exact ih (n / 10) (Nat.div_lt_self (by omega) (by omega)) c h
      · simp only [List.mem_singleton] at h
        subst h
        exact digitChar_mem_digits (n % 10) (Nat.mod_lt n (by omega))

theorem natRepr_data (n : Nat) : (Nat.repr n).data = decChars n := by
  show (Nat.toDigits 10 n).asString.data = decChars n
  unfold Nat.toDigits
  rw [toDigitsCore_eq_decChars (n + 1) n [] (by omega)]
  simp [List.asString]

theorem intRepr_data (i : Int) :
    (Int.repr i).data =
      if 0 ≤ i then decChars i.natAbs else '-' :: decChars i.natAbs := by
  cases i with
  | ofNat m =>
    rw [if_pos (by exact Int.ofNat_nonneg m)]
    show (Nat.repr m).data = _
    rw [natRepr_data]
    rfl
  | negSucc m =>
    rw [if_neg (not_le.mpr (Int.negSucc_lt_zero m))]
    show ("-" ++ Nat.repr (m + 1)).data = '-' :: decChars (Int.natAbs (Int.negSucc m))
    rw [String.data_append, natRepr_data]
    rfl

theorem append_singleton_inj {l1 l2 : List Char} {a b : Char}
    (h : l1 ++ [a] = l2 ++ [b]) : l1 = l2 ∧ a = b := by
  have hr := congrArg List.reverse h
  simp only [List.reverse_append, List.reverse_singleton, List.singleton_append] at hr
  obtain ⟨hab, hl⟩ := List.cons.inj hr
  exact ⟨List.reverse_injective hl, hab⟩

theorem decChars_inj : ∀ m n : Nat, decChars m = decChars n → m = n := by
  intro m
  induction m using Nat.strong_induction_on with
  | _ m ih =>
    intro n h
    by_cases hm : m < 10 <;> by_cases hn : n < 10
    · rw [decChars_lt m hm, decChars_lt n hn] at h
      simp only [List.cons.injEq] at h
      exact digitChar_inj_lt m hm n hn h.1
    · rw [decChars_lt m hm, decChars_ge n hn] at h
      have hlen := congrArg List.length h
      simp only [List.length_singleton, List.length_append] at hlen
      have hne := decChars_ne_nil (n / 10)
      have hz : (decChars (n / 10)).length = 0 := by omega
      exact absurd (List.length_eq_zero.mp hz) hne
    · rw [decChars_ge m hm, decChars_lt n hn] at h
      have hlen := congrArg List.length h
      simp only [List.length_singleton, List.length_append] at hlen
      have hne := decChars_ne_nil (m / 10)
      have hz : (decChars (m / 10)).length = 0 := by omega
      exact absurd (List.length_eq_zero.mp hz) hne
    · rw [decChars_ge m hm, decChars_ge n hn] at h
      obtain ⟨hinit, hlast⟩ := append_singleton_inj h
      have hdiv : m / 10 = n / 10 :=
        ih (m / 10) (Nat.div_lt_self (by omega) (by omega)) (n / 10) hinit
      have hmod : m % 10 = n % 10 :=
        digitChar_inj_lt (m % 10) (Nat.mod_lt m (by omega)) (n % 10)
          (Nat.mod_lt n (by omega)) hlast
      omega

theorem toString_int_inj : ∀ i j : Int, toString i = toString j → i = j := by
  intro i j h
  have hd : (Int.repr i).data = (Int.repr j).data := congrArg String.data h
  rw [intRepr_data, intRepr_data] at hd
  by_cases hi : 0 ≤ i <;> by_cases hj : 0 ≤ j
  · rw [if_pos hi, if_pos hj] at hd
    have := decChars_inj _ _ hd
    omega
  · rw [if_pos hi, if_neg hj] at hd
    cases he : decChars i.natAbs with
    | nil => exact absurd he (decChars_ne_nil _)
    | cons x xs =>
      rw [he] at hd
      obtain ⟨hx, -⟩ := List.cons.inj hd
      have hxm : x ∈ decChars i.natAbs := by rw [he]; exact List.mem_cons_self x xs
      have := mem_decChars_digit i.natAbs x hxm
      rw [hx] at this
      simp at this
  · rw [if_neg hi, if_pos hj] at hd
    cases he : decChars j.natAbs with
    | nil => exact absurd he (decChars_ne_nil _)
    | cons x xs =>
      rw [he] at hd
      obtain ⟨hx, -⟩ := List.cons.inj hd.symm
      have hxm : x ∈ decChars j.natAbs := by rw [he]; exact List.mem_cons_self x xs
      have := mem_decChars_digit j.natAbs x hxm
      rw [hx] at this
      simp at this
  · rw [if_neg hi, if_neg hj] at hd
    obtain ⟨-, htl⟩ := List.cons.inj hd
    have := decChars_inj _ _ htl
    omega

theorem mem_toString_int (i : Int) :
    ∀ c ∈ (toString i).data,
      c ∈ ['-', '0', '1', '2', '3', '4', '5', '6', '7', '8', '9'] := by
  intro c hc
  have : (toString i).data = (Int.repr i).data := rfl
  rw [this, intRepr_data] at hc
  by_cases hi : 0 ≤ i
  · rw [if_pos hi] at hc
    have := mem_decChars_digit i.natAbs c hc
    simp only [List.mem_cons, List.mem_singleton] at this ⊢
    tauto
  · rw [if_neg hi] at hc
    rcases List.mem_cons.mp hc with h | h
    · subst h; simp
    · have := mem_decChars_digit i.natAbs c h
      simp only [List.mem_cons, List.mem_singleton] at this ⊢
      tauto

theorem toString_int_no_colon (i : Int) : ':' ∉ (toString i).data := by
  intro h
  have := mem_toString_int i ':' h
  simp at this

theorem toString_int_no_comma (i : Int) : ',' ∉ (toString i).data := by
  intro h
  have := mem_toString_int i ',' h
  simp at this

theorem toString_int_no_gt (i : Int) : '>' ∉ (toString i).data := by
  intro h
  have := mem_toString_int i '>' h
  simp at this

theorem rsplitListOnce_cons (sep : List Char) (c : Char) (cs : List Char) :
    rsplitListOnce sep (c :: cs)
      = match rsplitListOnce sep cs with
        | some (pre, post) => some (c :: pre, post)
        | none =>
          if sep.isPrefixOf (c :: cs) then some ([], (c :: cs).drop sep.length)
          else none := rfl

theorem rsplitListOnce_none_of_no_colon (l : List Char) (h : ':' ∉ l) :
    rsplitListOnce [':', ':'] l = none := by
  induction l with
  | nil => rfl
  | cons c cs ih =>
    have hc : c ≠ ':' := fun hc => h (by rw [hc]; exact List.mem_cons_self ':' cs)
    have hcs : ':' ∉ cs := fun hm => h (List.mem_cons_of_mem c hm)
    have hp : ¬ ([':', ':'].isPrefixOf (c :: cs) = true) := by
      rw [List.isPrefixOf_iff_prefix]
      intro hpre
      obtain ⟨t, ht⟩ := hpre
      exact hc (List.cons.inj ht).1.symm
    rw [rsplitListOnce_cons, ih hcs]
    simp [hp]

theorem rsplitListOnce_colons (pre rest : List Char) (h : ':' ∉ rest) :
    rsplitListOnce [':', ':'] (pre ++ ':' :: ':' :: rest) = some (pre, rest) := by
  induction pre with
  | nil =>
    have h1 : rsplitListOnce [':', ':'] rest = none :=
      rsplitListOnce_none_of_no_colon rest h
    have h2 : rsplitListOnce [':', ':'] (':' :: rest) = none := by
      have hp : ¬ ([':', ':'].isPrefixOf (':' :: rest) = true) := by
        rw [List.isPrefixOf_iff_prefix]
        intro hpre
        obtain ⟨t, ht⟩ := hpre
        have htail := (List.cons.inj ht).2
        exact h (by rw [← htail]; exact List.mem_cons_self ':' t)
      rw [rsplitListOnce_cons, h1]
      simp [hp]
    have hp2 : [':', ':'].isPrefixOf (':' :: ':' :: rest) = true := by
      rw [List.isPrefixOf_iff_prefix]
      exact ⟨rest, rfl⟩
    rw [List.nil_append, rsplitListOnce_cons, h2]
    simp [hp2]
  | cons p ps ih =>
    rw [List.cons_append, rsplitListOnce_cons, ih]

theorem stripModulePath_clamped (rest : String) (h : ':' ∉ rest.data) :
    stripModulePath ("clamped::" ++ rest) = rest := by
  unfold stripModulePath rsplitOnce
  have hsep : ("::" : String).toList = [':', ':'] := rfl
  have hdata : ("clamped::" ++ rest).toList
      = ['c', 'l', 'a', 'm', 'p', 'e', 'd'] ++ ':' :: ':' :: rest.data := by
    show ("clamped::" ++ rest).data = _
    rw [String.data_append]
    rfl
  rw [hsep, hdata, rsplitListOnce_colons _ _ h]

theorem append_sep_inj {sep : Char} :
    ∀ {l1 l2 r1 r2 : List Char}, sep ∉ l1 → sep ∉ l2 →
      l1 ++ sep :: r1 = l2 ++ sep :: r2 → l1 = l2 ∧ r1 = r2 := by
  intro l1
  induction l1 with
  | nil =>
    intro l2 r1 r2 _h1 h2 h
    cases l2 with
    | nil => exact ⟨rfl, (List.cons.inj h).2⟩
    | cons b bs =>
      have hb := (List.cons.inj h).1
      exact absurd (by rw [hb]; exact List.mem_cons_self b bs) h2
  | cons a as ih =>
    intro l2 r1 r2 h1 h2 h
    cases l2 with
    | nil =>
      have ha := (List.cons.inj h).1
      exact absurd (by rw [← ha]; exact List.mem_cons_self a as) h1
    | cons b bs =>
      obtain ⟨hab, htl⟩ := List.cons.inj h
      have h1' : sep ∉ as := fun hm => h1 (List.mem_cons_of_mem a hm)
      have h2' : sep ∉ bs := fun hm => h2 (List.mem_cons_of_mem b hm)
      obtain ⟨heq, hr⟩ := ih h1' h2' htl
      exact ⟨by rw [hab, heq], hr⟩

theorem intercalate_pair (a b : String) :
    String.intercalate ", " [a, b] = a ++ ", " ++ b := by
  simp [String.intercalate, String.intercalate.go]

theorem intercalate_single (a : String) : String.intercalate ", " [a] = a := by
  simp [String.intercalate, String.intercalate.go]

theorem stringExt {s t : String} (h : s.data = t.data) : s = t :=
  congrArg String.mk h

theorem stripModulePath_of_data (s rest : String)
    (hdata : s.data = "clamped".data ++ ':' :: ':' :: rest.data)
    (hrest : ':' ∉ rest.data) : stripModulePath s = rest := by
  have hs : s = "clamped::" ++ rest := by
    apply stringExt
    rw [hdata, String.data_append]
    rfl
  rw [hs]
  exact stripModulePath_clamped rest hrest

theorem stripModulePath_typeNameOf (base : String) (args : List Int)
    (hbase : ':' ∉ base.data)
    (hargs : ':' ∉ (String.intercalate ", " (args.map toString)).data) :
    stripModulePath (typeNameOf "clamped" base args)
      = base ++ "<" ++ String.intercalate ", " (args.map toString) ++ ">" := by
  apply stripModulePath_of_data
  · unfold typeNameOf
    simp only [String.data_append, List.append_assoc]
    rfl
  · simp only [String.data_append]
    intro hm
    rcases List.mem_append.mp hm with hm | hm
    · rcases List.mem_append.mp hm with hm | hm
      · rcases List.mem_append.mp hm with hm | hm
        · exact hbase hm
        · exact absurd hm (by decide)
      · exact hargs hm
    · exact absurd hm (by decide)

theorem intercalate_two_ints_no_colon (L U : Int) :
    ':' ∉ (String.intercalate ", " ([L, U].map toString)).data := by
  rw [List.map_cons, List.map_cons, List.map_nil, intercalate_pair]
  simp only [String.data_append]
  intro hm
  rcases List.mem_append.mp hm with hm | hm
  · rcases List.mem_append.mp hm with hm | hm
    · exact toString_int_no_colon L hm
    · exact absurd hm (by decide)
  · exact toString_int_no_colon U hm

/-- Claim C8: the `fmt::Debug` impl of the half-open shape renders the bare
macro type name (crate qualification stripped by the last-`::` split of
`type_name`), the compile-time bound values, and the wrapped value, and
therefore two bounded types with different bound pairs render differently
even when the wrapped primitive value is identical. -/
theorem debugFmt_strips_path_and_distinguishes (base : String)
    (hbase : ':' ∉ base.data) :
    (∀ L U v : Int, Clamped.debugFmt base L U ⟨v⟩
        = base ++ "<" ++ toString L ++ ", " ++ toString U ++ ">("
          ++ toString v ++ ")")
    ∧ (∀ L U L' U' v : Int, (L, U) ≠ (L', U') →
        Clamped.debugFmt base L U ⟨v⟩ ≠ Clamped.debugFmt base L' U' ⟨v⟩) := by
  have hfmt : ∀ L U v : Int, Clamped.debugFmt base L U ⟨v⟩
      = base ++ "<" ++ toString L ++ ", " ++ toString U ++ ">("
        ++ toString v ++ ")" := by
    intro L U v
    unfold Clamped.debugFmt debugTupleFmt
    rw [stripModulePath_typeNameOf base [L, U] hbase
      (intercalate_two_ints_no_colon L U)]
    rw [show ([L, U].map toString) = [toString L, toString U] from rfl,
      intercalate_pair]
    apply stringExt
    simp only [String.data_append, List.append_assoc]
    rfl
  refine ⟨hfmt, ?_⟩
  intro L U L' U' v hne heq
  rw [hfmt L U v, hfmt L' U' v] at heq
  have hd := congrArg String.data heq
  have hlt : ("<" : String).data = ['<'] := rfl
  have hcm : (", " : String).data = [',', ' '] := rfl
  have hgp : (">(" : String).data = ['>', '('] := rfl
  have hrp : (")" : String).data = [')'] := rfl
  simp only [String.data_append, List.append_assoc, hlt, hcm, hgp, hrp,
    List.cons_append, List.nil_append] at hd
  have h2 := List.append_cancel_left hd
  have h3 := (List.cons.inj h2).2
  obtain ⟨hLd, h4⟩ :=
    append_sep_inj (toString_int_no_comma L) (toString_int_no_comma L') h3
  have h5 := (List.cons.inj h4).2
  obtain ⟨hUd, -⟩ :=
    append_sep_inj (toString_int_no_gt U) (toString_int_no_gt U') h5
  exact hne (by
    rw [Prod.mk.injEq]
    exact ⟨toString_int_inj L L' (stringExt hLd),
      toString_int_inj U U' (stringExt hUd)⟩)

/-- Witness for C8 at the spec's own example: `ClampedU8<5, 10>` holding `5`
renders differently from `ClampedU8<0, 100>` holding `5`, and the `10..20`
instance holding `15` renders as the bare name plus bounds and value. -/
theorem debugFmt_strips_path_and_distinguishes_witness :
    Clamped.debugFmt "ClampedU8" 10 20 ⟨15⟩ = "ClampedU8<10, 20>(15)"
    ∧ Clamped.debugFmt "ClampedU8" 5 10 ⟨5⟩
        ≠ Clamped.debugFmt "ClampedU8" 0 100 ⟨5⟩ :=
  ⟨by rw [(debugFmt_strips_path_and_distinguishes "ClampedU8" (by decide)).1
      10 20 15]; rfl,
   (debugFmt_strips_path_and_distinguishes "ClampedU8" (by decide)).2
      5 10 0 100 5 (by decide)⟩

end ClampedSpec
